import Mathlib

/-!
Shallow embedding of `src/vdir/__init__.py` (python-vdir): a directory-backed
item store with mtime-based etags, atomic writes via the `atomicwrites`
library, and a small metadata store.

Modelling conventions:
- Text is modelled as `Str := List Char`.  The store's configurable encoding
  (default utf-8) round-trips valid text, so file content is kept decoded.
- The filesystem is an association list from full file paths to entries;
  every entry models a regular file.  `os.stat` mtime (`st_mtime_ns`) is a
  `Nat` field of the entry; the clock value used for a write is the `now`
  field of the `OS` state.
- Python exceptions become an explicit error type `PyErr`; `Except` models
  raising.  Facts of Python semantics used by the embedding are recorded in
  comments next to the definition that uses them.
- `atomic_write(path, mode, overwrite)` from the external `atomicwrites`
  package is modelled by its contract: content is written to a temp file in
  the same directory and renamed into place on normal exit of the `with`
  block; an exception inside the block discards the temp file and leaves the
  target untouched; with `overwrite=False` the commit fails with
  `OSError(EEXIST)` if the target exists.
-/

abbrev Str : Type := List Char

/-- Convert a string literal to the `Str` model of Python text. -/
def str (s : String) : Str := s.toList

/-- Linux errno values used by the source (`errno.ENOENT`, `errno.EEXIST`,
`errno.ENAMETOOLONG`). -/
def ENOENT : Nat := 2

def EEXIST : Nat := 17

def ENAMETOOLONG : Nat := 36

/-- Python exceptions raised by the module (plus the built-in exceptions its
slips actually produce). `notFoundError`/`wrongEtagError`/`alreadyExists`
are the module's `NotFoundError`, `WrongEtagError`, `AlreadyExists`. -/
inductive PyErr where
  | osError (errno : Nat)
  | notFoundError (arg : Str)
  | wrongEtagError (expected actual : Str)
  | alreadyExists (existing_href : Str)
  | typeError (msg : Str)
  | attributeError (attr : Str)
  | nameError (missing : Str)
deriving DecidableEq

/-- A regular file: decoded text content and `st_mtime_ns`. -/
structure Entry where
  content : Str
  mtime : Nat
deriving DecidableEq

/-- Filesystem state: full path to regular-file entry. -/
abbrev FS : Type := List (Str × Entry)

def FS.lookup : FS → Str → Option Entry
  | [], _ => none
  | (p, e) :: fs, q => if p = q then some e else FS.lookup fs q

/-- Create or overwrite the file at `p`. -/
def FS.insert (fs : FS) (p : Str) (e : Entry) : FS :=
  (p, e) :: fs.filter (fun x => x.1 ≠ p)

/-- `os.remove`. -/
def FS.erase (fs : FS) (p : Str) : FS :=
  fs.filter (fun x => x.1 ≠ p)

/-- OS state threaded through the operations: the filesystem, the clock value
stamped on the next write, and the filesystem's limit on the length of a
single file name (`NAME_MAX`; exceeding it makes syscalls on the path fail
with `OSError(ENAMETOOLONG)`). -/
structure OS where
  fs : FS
  now : Nat
  name_max : Nat
deriving DecidableEq

/-- `os.path.join(base, p)`: a component starting with `/` discards what came
before it.  `base` is assumed not to end in `/`. -/
def os_path_join (base p : Str) : Str :=
  if p.head? = some '/' then p else base ++ '/' :: p

/-- `'{:.9f}'.format(mtime)` on `st_mtime_ns`.  Only equality of etags
matters to any property below, so the decimal rendering is modelled as the
digits of the integer followed by nine zero decimals (the source's float
formatting can round huge ns values; no property here depends on the exact
digits). -/
def format_etag (mtime_ns : Nat) : Str := (toString mtime_ns).toList ++ str ".000000000"

/-- `SAFE_UID_CHARS` from the source. -/
def SAFE_UID_CHARS : Str :=
  str "abcdefghijklmnopqrstuvwxyzABCDEFGHIJKLMNOPQRSTUVWXYZ0123456789_.-+"

/-- `_href_safe(ident)`: `not bool(set(ident) - set(safe))`, i.e. every
character of `ident` is in the safe set. -/
def hrefSafe (ident : Str) : Bool :=
  ident.all (fun c => c ∈ SAFE_UID_CHARS)

/-- `_generate_href(ident)`.  `uuid.uuid4().hex` is a randomness source
external to the module; it is passed in as `rand`.  (Its output is always 32
lowercase hex characters; theorems that need that state it as a
hypothesis.)  Python's `not ident` is true for both `None` and `''`. -/
def generate_href (ident : Option Str) (rand : Str) : Str :=
  let identVal := ident.getD []
  if identVal = [] ∨ hrefSafe identVal = false then rand else identVal

/-- The 32-lowercase-hex shape of `uuid.uuid4().hex`. -/
def isUuidHex (s : Str) : Bool :=
  s.length = 32 && s.all (fun c => c ∈ str "0123456789abcdef")

/-- `str.strip()` whitespace for Python text (the characters relevant to the
metadata normalization discussion). -/
def isPySpace (c : Char) : Bool :=
  c ∈ str " \t\n\r"

/-- Python `value.strip()`. -/
def pyStrip (s : Str) : Str :=
  ((s.dropWhile isPySpace).reverse.dropWhile isPySpace).reverse

/-- `_normalize_meta_value(value)` from the source: `to_native(value or
u'').strip()`.  Defined at module level but never called by `set_meta` or
`get_meta`. -/
def normalize_meta_value (value : Option Str) : Str :=
  pyStrip (value.getD [])

/-- The `VdirBase` constructor state: `__init__(self, path, fileext,
encoding='utf-8')`.  Content is modelled decoded, so the encoding needs no
field. -/
structure VdirBase where
  path : Str
  fileext : Str
deriving DecidableEq

/-- `Item`: the module's item value object.  The class defines only `raw`
(text content).  `upload` additionally reads `item.ident` — the optional
identifier hint the spec associates with an item — so a usable item carries
it; the class defines no `uid` attribute, so the `item.uid` access in
`update` raises `AttributeError`. -/
structure Item where
  raw : Str
  ident : Option Str
deriving DecidableEq

/-- `VdirBase._get_filepath(href)`. -/
def VdirBase.get_filepath (s : VdirBase) (href : Str) : Str :=
  os_path_join s.path href

/-- `VdirBase._get_href(ident)`. -/
def VdirBase.get_href (s : VdirBase) (ident : Option Str) (rand : Str) : Str :=
  generate_href ident rand ++ s.fileext

/-- `VdirBase.get(href)`: open, read, decode; `IOError` with `ENOENT`
becomes `NotFoundError(href)`.  Returns (content, etag); the source wraps
the content in `Item`, which adds nothing over the raw text. -/
def VdirBase.get (s : VdirBase) (os : OS) (href : Str) : Except PyErr (Str × Str) :=
  let fpath := s.get_filepath href
  match os.fs.lookup fpath with
  | none => .error (.notFoundError href)
  | some e => .ok (e.content, format_etag e.mtime)

/-- `VdirBase._upload_impl(item, href)`: `atomic_write(fpath, 'wb',
overwrite=False)`, write the encoded content, and return `(fpath, etag)`
where the etag is taken from the temp file (`f.name`) — rename preserves
mtime, so it equals the committed file's mtime, here `os.now`.

Failure paths, traced through Python semantics:
- a file name longer than the filesystem's limit makes the commit fail with
  `OSError(ENAMETOOLONG)`, which the `except` clause re-raises (its errno is
  not `EEXIST`); the temp file is discarded, so the state is unchanged;
- if the target exists, the exclusive commit fails with `OSError(EEXIST)`
  and the source runs `raise AlreadyExists(existing_href=href)`.
  `AlreadyExists` subclasses `IOError` (= `OSError` in Python 3) and defines
  no `__init__`, and `OSError` rejects keyword arguments, so constructing
  the exception itself raises `TypeError("AlreadyExists() takes no keyword
  arguments")`; that `TypeError` is what propagates. -/
def VdirBase.upload_impl (s : VdirBase) (os : OS) (raw : Str) (href : Str) :
    Except PyErr (Str × Str) × OS :=
  let fpath := s.get_filepath href
  if os.name_max < href.length then
    (.error (.osError ENAMETOOLONG), os)
  else
    match os.fs.lookup fpath with
    | some _ => (.error (.typeError (str "AlreadyExists() takes no keyword arguments")), os)
    | none =>
        (.ok (fpath, format_etag os.now),
         { os with fs := os.fs.insert fpath ⟨raw, os.now⟩ })

/-- Modelled from the spec: the optional post-write hook.  `upload` reads
`self.post_hook`, an attribute no code under `src/` defines; the spec places
the hook out of scope ("any optional post-write hook/external command
invocation") and requires that its failures "be isolated from the storage
contract".  Modelled as not configured. -/
def post_hook : Option Unit := none

/-- Modelled from the spec: running the post-write hook is an external
command invocation isolated from the storage contract; it does not alter
the store's directory. -/
def run_post_hook (os : OS) : OS := os

/-- `VdirBase.upload(item)`.  `item.raw` is modelled as text, so the
`isinstance` guard never fires.  The first write attempt is wrapped in
`except OSError as e`: errno `ENAMETOOLONG` (Unix) or `ENOENT` (Windows)
triggers one retry with a random-identifier href; any other `OSError` is
re-raised; non-`OSError` exceptions (e.g. the `TypeError` from the
`AlreadyExists` construction) propagate uncaught.  `rand1` feeds the first
`_get_href(item.ident)`, `rand2` the retry's `_get_href(None)`. -/
def VdirBase.upload (s : VdirBase) (os : OS) (item : Item) (rand1 rand2 : Str) :
    Except PyErr (Str × Str) × OS :=
  let href := s.get_href item.ident rand1
  match s.upload_impl os item.raw href with
  | (.ok (fpath, etag), os') =>
      let _ := fpath
      (.ok (href, etag), if post_hook.isSome then run_post_hook os' else os')
  | (.error (.osError e), os') =>
      if e = ENAMETOOLONG ∨ e = ENOENT then
        let href2 := s.get_href none rand2
        match s.upload_impl os' item.raw href2 with
        | (.ok (fpath, etag), os'') =>
            let _ := fpath
            (.ok (href2, etag), if post_hook.isSome then run_post_hook os'' else os'')
        | (.error err, os'') => (.error err, os'')
      else (.error (.osError e), os')
  | (.error err, os') => (.error err, os')

/-- `VdirBase.update(href, item, etag)`.
- missing file: the source runs `raise NotFoundError(item.uid)`, but `Item`
  defines no `uid` attribute, so the access raises `AttributeError` (and
  even on an object carrying a `uid`, the error would carry the uid, not
  the href);
- etag mismatch: `WrongEtagError(etag, actual_etag)`, file untouched;
- etag match: inside `atomic_write(..., overwrite=True)` the source writes
  the content and then calls `_get_etag_from_fileobject(f)`, a name defined
  nowhere in the module, raising `NameError`; the exception inside the
  `with` block makes `atomic_write` discard the temp file, so the target is
  never replaced and `update` raises instead of returning. -/
def VdirBase.update (s : VdirBase) (os : OS) (href : Str) (item : Item) (etag : Str) :
    Except PyErr Str × OS :=
  let _ := item
  let fpath := s.get_filepath href
  match os.fs.lookup fpath with
  | none => (.error (.attributeError (str "uid")), os)
  | some e =>
      let actual := format_etag e.mtime
      if etag ≠ actual then (.error (.wrongEtagError etag actual), os)
      else (.error (.nameError (str "_get_etag_from_fileobject")), os)

/-- `VdirBase.delete(href, etag)`: `os.path.isfile` check, etag check,
`os.remove`. -/
def VdirBase.delete (s : VdirBase) (os : OS) (href : Str) (etag : Str) :
    Except PyErr Unit × OS :=
  let fpath := s.get_filepath href
  match os.fs.lookup fpath with
  | none => (.error (.notFoundError href), os)
  | some e =>
      let actual := format_etag e.mtime
      if etag ≠ actual then (.error (.wrongEtagError etag actual), os)
      else (.ok (), { os with fs := os.fs.erase fpath })

/-- `VdirBase.get_meta(key)`: read and decode the file at
`os.path.join(self.path, key)`; `ENOENT` yields `None`; otherwise the
decoded content `or None` (so empty content also yields `None`).  No
stripping happens anywhere on this path. -/
def VdirBase.get_meta (s : VdirBase) (os : OS) (key : Str) : Except PyErr (Option Str) :=
  let fpath := os_path_join s.path key
  match os.fs.lookup fpath with
  | none => .ok none
  | some e => .ok (if e.content = [] then none else some e.content)

/-- `VdirBase.set_meta(key, value)`: `value = value or u''`, then write the
encoded value with `atomic_write(..., overwrite=True)`.  The module's
`_normalize_meta_value` is never called: the value is written as given,
without stripping. -/
def VdirBase.set_meta (s : VdirBase) (os : OS) (key : Str) (value : Option Str) : OS :=
  let v := value.getD []
  let fpath := os_path_join s.path key
  { os with fs := os.fs.insert fpath ⟨v, os.now⟩ }

/-- Boolean prefix test on `Str` (first argument is the prefix). -/
def strPrefixOf : Str → Str → Bool
  | [], _ => true
  | _, [] => false
  | c :: cs, d :: ds => c = d && strPrefixOf cs ds

/-- Python `name.endswith(ext)`. -/
def strSuffixOf (suffix s : Str) : Bool :=
  strPrefixOf suffix.reverse s.reverse

/-- The name under which a full path `p` appears in `os.listdir(dir)` as a
regular file directly inside `dir`: `p` must extend `dir ++ "/"` by a
nonempty component without further separators (paths deeper down belong to
subdirectories, which `os.path.isfile` filters out of `list`). -/
def childName (dir p : Str) : Option Str :=
  if strPrefixOf (dir ++ ['/']) p then
    let rest := p.drop (dir.length + 1)
    if rest = [] ∨ '/' ∈ rest then none else some rest
  else none

/-- `VdirBase.list()`: for each directory entry that is a regular file and
whose name ends with `self.fileext`, yield `(fname, etag)`. -/
def VdirBase.list (s : VdirBase) (os : OS) : List (Str × Str) :=
  os.fs.filterMap (fun pe =>
    match childName s.path pe.1 with
    | some n => if strSuffixOf s.fileext n then some (n, format_etag pe.2.mtime) else none
    | none => none)

/-! ### Lemmas about the filesystem model -/

theorem FS.lookup_filter_ne (fs : FS) (p q : Str) (h : q ≠ p) :
    FS.lookup (fs.filter (fun x => x.1 ≠ p)) q = fs.lookup q := by
  induction fs with
  | nil => rfl
  | cons pe fs ih =>
    obtain ⟨r, e⟩ := pe
    rw [List.filter_cons]
    by_cases hr : r = p
    · rw [if_neg (by simp [hr]), ih]
      show FS.lookup fs q = FS.lookup ((r, e) :: fs) q
      simp only [FS.lookup]
      rw [if_neg (by rw [hr]; exact fun hq => h hq.symm)]
    · rw [if_pos (by simp [hr])]
      simp only [FS.lookup]
      by_cases hq : r = q
      · rw [if_pos hq, if_pos hq]
      · rw [if_neg hq, if_neg hq, ih]

theorem FS.lookup_insert_self (fs : FS) (p : Str) (e : Entry) :
    FS.lookup (fs.insert p e) p = some e := by
  simp [FS.insert, FS.lookup]

theorem FS.lookup_insert_ne (fs : FS) (p q : Str) (e : Entry) (h : q ≠ p) :
    FS.lookup (fs.insert p e) q = fs.lookup q := by
  simp only [FS.insert, FS.lookup]
  rw [if_neg (fun hpq => h hpq.symm)]
  exact FS.lookup_filter_ne fs p q h

theorem FS.lookup_erase_ne (fs : FS) (p q : Str) (h : q ≠ p) :
    FS.lookup (fs.erase p) q = fs.lookup q :=
  FS.lookup_filter_ne fs p q h

theorem FS.mem_of_lookup (fs : FS) (q : Str) (e : Entry) (h : fs.lookup q = some e) :
    (q, e) ∈ fs := by
  induction fs with
  | nil => cases h
  | cons pe fs ih =>
    obtain ⟨r, e'⟩ := pe
    simp only [FS.lookup] at h
    by_cases hr : r = q
    · subst hr
      rw [if_pos rfl] at h
      cases h
      exact List.mem_cons_self _ _
    · rw [if_neg hr] at h
      exact List.mem_cons_of_mem _ (ih h)

/-! ### Lemmas about string prefixes and directory children -/

theorem strPrefixOf_append (p t : Str) : strPrefixOf p (p ++ t) = true := by
  induction p with
  | nil => cases t <;> rfl
  | cons c cs ih => simp [strPrefixOf, ih]

theorem strPrefixOf_iff (p q : Str) : strPrefixOf p q = true ↔ ∃ t, q = p ++ t := by
  constructor
  · intro h
    induction p generalizing q with
    | nil => exact ⟨q, rfl⟩
    | cons c cs ih =>
      cases q with
      | nil => cases h
      | cons d ds =>
        simp only [strPrefixOf, Bool.and_eq_true, decide_eq_true_eq] at h
        obtain ⟨t, ht⟩ := ih ds h.2
        exact ⟨t, by rw [h.1, ht]; rfl⟩
  · rintro ⟨t, rfl⟩
    exact strPrefixOf_append p t

theorem childName_of_child (dir n : Str) (hn : n ≠ []) (hsep : '/' ∉ n) :
    childName dir (dir ++ '/' :: n) = some n := by
  have h1 : dir ++ '/' :: n = (dir ++ ['/']) ++ n := by simp
  unfold childName
  rw [h1, if_pos (strPrefixOf_append _ n)]
  have h2 : ((dir ++ ['/']) ++ n).drop (dir.length + 1) = n := by
    have : (dir ++ ['/']).length = dir.length + 1 := by simp
    rw [← this, List.drop_left]
  simp only [h2]
  rw [if_neg]
  simp [hn, hsep]

theorem childName_inv (dir p n : Str) (h : childName dir p = some n) :
    p = dir ++ '/' :: n ∧ n ≠ [] ∧ '/' ∉ n := by
  unfold childName at h
  by_cases hpre : strPrefixOf (dir ++ ['/']) p = true
  · rw [if_pos hpre] at h
    obtain ⟨t, ht⟩ := (strPrefixOf_iff _ _).1 hpre
    have hdrop : p.drop (dir.length + 1) = t := by
      have hlen : (dir ++ ['/']).length = dir.length + 1 := by simp
      rw [ht, ← hlen, List.drop_left]
    rw [hdrop] at h
    by_cases hcond : t = [] ∨ '/' ∈ t
    · rw [if_pos hcond] at h; cases h
    · rw [if_neg hcond] at h
      cases h
      push_neg at hcond
      exact ⟨by rw [ht]; simp, hcond.1, hcond.2⟩
  · rw [if_neg hpre] at h; cases h

deriving instance DecidableEq for Except

/-! ### Claims -/

/-- C1: for every stored href and expected etag `e` differing from the file's
current on-disk etag, `update(href, item, e)` and `delete(href, e)` fail with
the etag-mismatch error carrying both the expected and the actual etag, and
leave the filesystem (hence the file's content and etag) unchanged. -/
theorem update_delete_etag_mismatch (s : VdirBase) (os : OS) (href etag : Str)
    (item : Item) (e : Entry)
    (hstored : os.fs.lookup (s.get_filepath href) = some e)
    (hne : etag ≠ format_etag e.mtime) :
    s.update os href item etag = (.error (.wrongEtagError etag (format_etag e.mtime)), os) ∧
    s.delete os href etag = (.error (.wrongEtagError etag (format_etag e.mtime)), os) := by
  constructor
  · simp [VdirBase.update, hstored, hne]
  · simp [VdirBase.delete, hstored, hne]

theorem update_delete_etag_mismatch_witness :
    VdirBase.update ⟨str "/store", str ".txt"⟩
        ⟨[(str "/store/a.txt", ⟨str "x", 5⟩)], 9, 255⟩
        (str "a.txt") ⟨str "y", none⟩ (str "4.000000000")
      = (.error (.wrongEtagError (str "4.000000000") (format_etag 5)),
         ⟨[(str "/store/a.txt", ⟨str "x", 5⟩)], 9, 255⟩) ∧
    VdirBase.delete ⟨str "/store", str ".txt"⟩
        ⟨[(str "/store/a.txt", ⟨str "x", 5⟩)], 9, 255⟩
        (str "a.txt") (str "4.000000000")
      = (.error (.wrongEtagError (str "4.000000000") (format_etag 5)),
         ⟨[(str "/store/a.txt", ⟨str "x", 5⟩)], 9, 255⟩) :=
  update_delete_etag_mismatch _ _ _ _ _ ⟨str "x", 5⟩ (by decide) (by decide)

/-- C3: when `update` is called with the etag matching the stored file, the
source does not overwrite and return a new etag: it calls
`_get_etag_from_fileobject`, a name defined nowhere in the module, so a
`NameError` is raised inside the `atomic_write` block; the temp file is
discarded and the target file is left unchanged. -/
theorem update_match_raises_nameError :
    VdirBase.update ⟨str "/store", str ".txt"⟩
        ⟨[(str "/store/a.txt", ⟨str "x", 5⟩)], 9, 255⟩
        (str "a.txt") ⟨str "y", none⟩ (format_etag 5)
      = (.error (.nameError (str "_get_etag_from_fileobject")),
         ⟨[(str "/store/a.txt", ⟨str "x", 5⟩)], 9, 255⟩) := by decide

/-- C4: `set_meta` writes the value unstripped (the module's
`_normalize_meta_value` is dead code), so `get_meta` after
`set_meta(k, " x ")` returns `" x "`, not the stripped `"x"`; and a stored
value that is whitespace-only — empty after normalization — is returned
as-is rather than as absent.  (A missing key does return absent.) -/
theorem set_get_meta_not_stripped :
    VdirBase.get_meta ⟨str "/store", str ".txt"⟩
        (VdirBase.set_meta ⟨str "/store", str ".txt"⟩ ⟨[], 9, 255⟩
          (str "displayname") (some (str " x "))) (str "displayname")
      = .ok (some (str " x ")) ∧
    pyStrip (str " x ") ≠ str " x " ∧
    VdirBase.get_meta ⟨str "/store", str ".txt"⟩
        (VdirBase.set_meta ⟨str "/store", str ".txt"⟩ ⟨[], 9, 255⟩
          (str "color") (some (str "  "))) (str "color")
      = .ok (some (str "  ")) ∧
    normalize_meta_value (some (str "  ")) = [] ∧
    VdirBase.get_meta ⟨str "/store", str ".txt"⟩ ⟨[], 9, 255⟩ (str "displayname")
      = .ok none := by decide

/-- C8: on a href with no corresponding file, `get` and `delete` raise
`NotFoundError` carrying the href, but `update` evaluates `item.uid` to
build its `NotFoundError` — an attribute the `Item` class does not define —
so it raises `AttributeError` instead of a `NotFoundError` carrying the
href. -/
theorem missing_href_error_payloads :
    VdirBase.get ⟨str "/store", str ".txt"⟩ ⟨[], 9, 255⟩ (str "a.txt")
      = .error (.notFoundError (str "a.txt")) ∧
    VdirBase.delete ⟨str "/store", str ".txt"⟩ ⟨[], 9, 255⟩ (str "a.txt") (str "e")
      = (.error (.notFoundError (str "a.txt")), ⟨[], 9, 255⟩) ∧
    VdirBase.update ⟨str "/store", str ".txt"⟩ ⟨[], 9, 255⟩ (str "a.txt")
        ⟨str "y", none⟩ (str "e")
      = (.error (.attributeError (str "uid")), ⟨[], 9, 255⟩) ∧
    PyErr.attributeError (str "uid") ≠ .notFoundError (str "a.txt") := by decide

theorem uuidHex_safe (r : Str) (h : isUuidHex r = true) : hrefSafe r = true := by
  simp only [isUuidHex, Bool.and_eq_true, decide_eq_true_eq] at h
  simp only [hrefSafe, List.all_eq_true, decide_eq_true_eq]
  intro c hc
  have hhex : ∀ x ∈ str "0123456789abcdef", x ∈ SAFE_UID_CHARS := by decide
  exact hhex c (by simpa using List.all_eq_true.1 h.2 c hc)

/-- C5: with `rand` the 32-lowercase-hex output of `uuid.uuid4().hex`, a hint
that is empty or contains a character outside `[A-Za-z0-9_.+-]` yields the
href `rand ++ fileext`, which never equals `hint ++ fileext`; a nonempty
all-safe hint yields exactly `hint ++ fileext`. -/
theorem href_generation_safe (s : VdirBase) (hint rand : Str)
    (hrand : isUuidHex rand = true) :
    ((hint = [] ∨ hrefSafe hint = false) →
        s.get_href (some hint) rand = rand ++ s.fileext ∧
        s.get_href (some hint) rand ≠ hint ++ s.fileext) ∧
    (hint ≠ [] → hrefSafe hint = true → s.get_href (some hint) rand = hint ++ s.fileext) := by
  have hlen : rand.length = 32 := by
    simp only [isUuidHex, Bool.and_eq_true, decide_eq_true_eq] at hrand
    exact hrand.1
  constructor
  · intro hcase
    have hgen : generate_href (some hint) rand = rand := by
      unfold generate_href
      simp only [Option.getD_some]
      rw [if_pos hcase]
    refine ⟨by simp [VdirBase.get_href, hgen], ?_⟩
    simp only [VdirBase.get_href, hgen]
    intro heq
    have hrh : rand = hint := List.append_cancel_right heq
    rcases hcase with h1 | h2
    · rw [h1] at hrh
      rw [hrh] at hlen
      simp at hlen
    · have hsafe := uuidHex_safe rand hrand
      rw [hrh, h2] at hsafe
      cases hsafe
  · intro h1 h2
    unfold VdirBase.get_href generate_href
    simp only [Option.getD_some]
    rw [if_neg (by simp [h1, h2])]

theorem href_generation_safe_witness :
    isUuidHex (str "00112233445566778899aabbccddeeff") = true ∧
    VdirBase.get_href ⟨str "/store", str ".txt"⟩ (some (str "a/b"))
        (str "00112233445566778899aabbccddeeff")
      ≠ str "a/b" ++ str ".txt" :=
  ⟨by decide,
   ((href_generation_safe ⟨str "/store", str ".txt"⟩ (str "a/b") _ (by decide)).1
      (Or.inr (by decide))).2⟩

/-- C6: `_upload_impl` (`write_new`) on a fresh name atomically makes the
whole content visible under the target path; on an existing name it leaves
the filesystem untouched, but the exception that escapes is the `TypeError`
raised while constructing `AlreadyExists(existing_href=href)` (an `OSError`
subclass takes no keyword arguments), not an `AlreadyExists` carrying the
colliding href. -/
theorem write_new_collision_typeError :
    VdirBase.upload_impl ⟨str "/store", str ".txt"⟩ ⟨[], 9, 255⟩ (str "hello") (str "a.txt")
      = (.ok (str "/store/a.txt", format_etag 9),
         ⟨[(str "/store/a.txt", ⟨str "hello", 9⟩)], 9, 255⟩) ∧
    VdirBase.upload_impl ⟨str "/store", str ".txt"⟩
        ⟨[(str "/store/a.txt", ⟨str "old", 5⟩)], 9, 255⟩ (str "hello") (str "a.txt")
      = (.error (.typeError (str "AlreadyExists() takes no keyword arguments")),
         ⟨[(str "/store/a.txt", ⟨str "old", 5⟩)], 9, 255⟩) ∧
    PyErr.typeError (str "AlreadyExists() takes no keyword arguments")
      ≠ .alreadyExists (str "a.txt") := by decide

/-- C7: a href too long for the filesystem (`ENAMETOOLONG`) makes `upload`
retry exactly once with a random-identifier href, which succeeds on a fresh
name; but when that retry hits an existing file, what propagates is the
`TypeError` from the failed `AlreadyExists(existing_href=...)` construction,
not an `AlreadyExists` carrying the colliding href. -/
theorem upload_nametoolong_retry :
    VdirBase.upload ⟨str "/store", str ".txt"⟩ ⟨[], 9, 10⟩
        ⟨str "hi", some (str "longhint")⟩ (str "x") (str "ab")
      = (.ok (str "ab.txt", format_etag 9),
         ⟨[(str "/store/ab.txt", ⟨str "hi", 9⟩)], 9, 10⟩) ∧
    VdirBase.upload ⟨str "/store", str ".txt"⟩
        ⟨[(str "/store/ab.txt", ⟨str "old", 5⟩)], 9, 10⟩
        ⟨str "hi", some (str "longhint")⟩ (str "x") (str "ab")
      = (.error (.typeError (str "AlreadyExists() takes no keyword arguments")),
         ⟨[(str "/store/ab.txt", ⟨str "old", 5⟩)], 9, 10⟩) := by decide

theorem upload_impl_ok (s : VdirBase) (os os' : OS) (raw href fpath etag : Str)
    (h : s.upload_impl os raw href = (.ok (fpath, etag), os')) :
    etag = format_etag os.now ∧
    os' = { os with fs := os.fs.insert (s.get_filepath href) ⟨raw, os.now⟩ } := by
  unfold VdirBase.upload_impl at h
  split at h
  · simp at h
  · simp only [] at h
    split at h
    · simp at h
    · simp only [Prod.mk.injEq, Except.ok.injEq] at h
      exact ⟨h.1.2.symm, h.2.symm⟩

theorem get_after_insert (s : VdirBase) (os : OS) (href : Str) (e : Entry) :
    s.get { os with fs := os.fs.insert (s.get_filepath href) e } href
      = .ok (e.content, format_etag e.mtime) := by
  unfold VdirBase.get
  simp only []
  rw [FS.lookup_insert_self]

/-- C2: whenever `upload` (create) succeeds, returning `(href, etag)`,
`get href` on the resulting state returns content equal to `item.raw` and
the very etag `upload` returned.  (`post_hook` is modelled from the spec as
not configured; see its definition.) -/
theorem upload_get_roundtrip (s : VdirBase) (os os' : OS) (item : Item)
    (r1 r2 href etag : Str)
    (h : s.upload os item r1 r2 = (.ok (href, etag), os')) :
    s.get os' href = .ok (item.raw, etag) := by
  unfold VdirBase.upload at h
  simp only [post_hook, run_post_hook, Option.isSome_none, Bool.false_eq_true,
    if_false] at h
  rcases hup : s.upload_impl os item.raw (s.get_href item.ident r1) with ⟨err | v, os1⟩
  · -- the first write attempt raised
    rw [hup] at h
    rcases err with e | a | ⟨exp, act⟩ | a | m | a | m
    · -- OSError(e): retried iff the errno is in the retried set
      simp only [] at h
      by_cases hc : e = ENAMETOOLONG ∨ e = ENOENT
      · rw [if_pos hc] at h
        rcases hup2 : s.upload_impl os1 item.raw (s.get_href none r2) with ⟨err2 | v2, os2⟩
        · rw [hup2] at h
          simp at h
        · rw [hup2] at h
          obtain ⟨fpath2, etag2⟩ := v2
          simp only [Prod.mk.injEq, Except.ok.injEq] at h
          obtain ⟨⟨hhref, hetag⟩, hos⟩ := h
          obtain ⟨hetg, hos2⟩ := upload_impl_ok _ _ _ _ _ _ _ hup2
          subst hhref
          subst hetag
          subst hos
          subst hos2
          rw [hetg]
          exact get_after_insert s os1 (s.get_href none r2) ⟨item.raw, os1.now⟩
      · rw [if_neg hc] at h
        simp at h
    all_goals simp at h
  · -- the first write attempt succeeded
    rw [hup] at h
    obtain ⟨fpath1, etag1⟩ := v
    simp only [Prod.mk.injEq, Except.ok.injEq] at h
    obtain ⟨⟨hhref, hetag⟩, hos⟩ := h
    obtain ⟨hetg, hos1⟩ := upload_impl_ok _ _ _ _ _ _ _ hup
    subst hhref
    subst hetag
    subst hos
    subst hos1
    rw [hetg]
    exact get_after_insert s os (s.get_href item.ident r1) ⟨item.raw, os.now⟩

theorem upload_get_roundtrip_witness :
    VdirBase.upload ⟨str "/store", str ".ics"⟩ ⟨[], 9, 255⟩
        ⟨str "BEGIN:VEVENT", some (str "evt-1")⟩ (str "r1") (str "r2")
      = (.ok (str "evt-1.ics", format_etag 9),
         ⟨[(str "/store/evt-1.ics", ⟨str "BEGIN:VEVENT", 9⟩)], 9, 255⟩) ∧
    VdirBase.get ⟨str "/store", str ".ics"⟩
        ⟨[(str "/store/evt-1.ics", ⟨str "BEGIN:VEVENT", 9⟩)], 9, 255⟩ (str "evt-1.ics")
      = .ok (str "BEGIN:VEVENT", format_etag 9) :=
  ⟨by decide,
   upload_get_roundtrip ⟨str "/store", str ".ics"⟩ ⟨[], 9, 255⟩ _
     ⟨str "BEGIN:VEVENT", some (str "evt-1")⟩ (str "r1") (str "r2") _ _ (by decide)⟩

theorem update_fs_unchanged (s : VdirBase) (os : OS) (href : Str) (item : Item)
    (etag : Str) : (s.update os href item etag).2 = os := by
  unfold VdirBase.update
  simp only []
  split
  · rfl
  · split <;> rfl

theorem delete_frame (s : VdirBase) (os : OS) (href etag q : Str)
    (hq : q ≠ s.get_filepath href) :
    (s.delete os href etag).2.fs.lookup q = os.fs.lookup q := by
  unfold VdirBase.delete
  simp only []
  split
  · rfl
  · split
    · rfl
    · exact FS.lookup_erase_ne _ _ _ hq

theorem set_meta_frame (s : VdirBase) (os : OS) (key q : Str) (v : Option Str)
    (hq : q ≠ os_path_join s.path key) :
    (s.set_meta os key v).fs.lookup q = os.fs.lookup q := by
  unfold VdirBase.set_meta
  exact FS.lookup_insert_ne _ _ _ _ hq

theorem upload_impl_frame (s : VdirBase) (os : OS) (raw href q : Str)
    (hq : q ≠ s.get_filepath href) :
    (s.upload_impl os raw href).2.fs.lookup q = os.fs.lookup q := by
  unfold VdirBase.upload_impl
  split
  · rfl
  · simp only []
    split
    · rfl
    · exact FS.lookup_insert_ne _ _ _ _ hq

/-- C9 counterexample: the store performs no validation of hrefs or
metadata keys, and `os.path.join` lets an absolute component replace the
store's directory entirely, so operations given such arguments touch paths
outside the configured directory: `set_meta` with key `/etc/passwd` writes
that path, and `get` with href `/etc/passwd` reads it. -/
theorem ops_escape_store_dir :
    (VdirBase.set_meta ⟨str "/store", str ".txt"⟩ ⟨[], 9, 255⟩ (str "/etc/passwd")
        (some (str "boom"))).fs.lookup (str "/etc/passwd")
      = some ⟨str "boom", 9⟩ ∧
    strPrefixOf (str "/store" ++ ['/']) (str "/etc/passwd") = false ∧
    VdirBase.get ⟨str "/store", str ".txt"⟩
        ⟨[(str "/etc/passwd", ⟨str "secret", 3⟩)], 9, 255⟩ (str "/etc/passwd")
      = .ok (str "secret", format_etag 3) := by decide

/-- C9 (amended): for hrefs and metadata keys that are plain file names —
containing no path separator — every path the operations resolve lies
directly under the store's directory, and each mutating operation leaves
every path outside the store's directory unchanged (`update`, which can
never commit, changes nothing at all; `get`, `get_meta` and `list` return
no new state). -/
theorem ops_touch_only_store_dir (s : VdirBase) (os : OS) (name q : Str)
    (item : Item) (etag : Str) (v : Option Str)
    (hplain : ¬ '/' ∈ name)
    (hq : strPrefixOf (s.path ++ ['/']) q = false) :
    strPrefixOf (s.path ++ ['/']) (s.get_filepath name) = true ∧
    (s.set_meta os name v).fs.lookup q = os.fs.lookup q ∧
    (s.delete os name etag).2.fs.lookup q = os.fs.lookup q ∧
    (s.update os name item etag).2 = os ∧
    (s.upload_impl os item.raw name).2.fs.lookup q = os.fs.lookup q := by
  have hfp : s.get_filepath name = (s.path ++ ['/']) ++ name := by
    unfold VdirBase.get_filepath os_path_join
    have hhead : name.head? ≠ some '/' := by
      cases name with
      | nil => simp
      | cons c cs =>
        intro hc
        have hc2 : c = '/' := by injection hc
        exact hplain (by rw [hc2]; exact List.mem_cons_self _ _)
    rw [if_neg hhead]
    simp
  have hqne : q ≠ s.get_filepath name := by
    intro hqe
    rw [hqe, hfp, strPrefixOf_append] at hq
    cases hq
  refine ⟨?_, ?_, ?_, ?_, ?_⟩
  · rw [hfp]; exact strPrefixOf_append _ _
  · exact set_meta_frame s os name q v hqne
  · exact delete_frame s os name etag q hqne
  · exact update_fs_unchanged s os name item etag
  · exact upload_impl_frame s os item.raw name q hqne

theorem ops_touch_only_store_dir_witness :
    (¬ '/' ∈ str "a.txt") ∧
    strPrefixOf (str "/store" ++ ['/']) (str "/etc/passwd") = false ∧
    (VdirBase.set_meta ⟨str "/store", str ".txt"⟩ ⟨[], 9, 255⟩ (str "a.txt")
        (some (str "v"))).fs.lookup (str "/etc/passwd")
      = (⟨[], 9, 255⟩ : OS).fs.lookup (str "/etc/passwd") :=
  ⟨by decide, by decide,
   (ops_touch_only_store_dir ⟨str "/store", str ".txt"⟩ ⟨[], 9, 255⟩ (str "a.txt")
      (str "/etc/passwd") ⟨str "x", none⟩ (str "e") (some (str "v"))
      (by decide) (by decide)).2.1⟩

theorem list_mem_spec (s : VdirBase) (os : OS) (n t : Str)
    (h : (n, t) ∈ s.list os) :
    strSuffixOf s.fileext n = true ∧ n ≠ [] ∧ ¬ '/' ∈ n ∧
    ∃ e : Entry, (s.path ++ '/' :: n, e) ∈ os.fs ∧ t = format_etag e.mtime := by
  unfold VdirBase.list at h
  rw [List.mem_filterMap] at h
  obtain ⟨⟨p, e⟩, hpe, hf⟩ := h
  cases hcn : childName s.path p with
  | none => rw [hcn] at hf; cases hf
  | some m =>
    rw [hcn] at hf
    simp only [] at hf
    by_cases hsuf : strSuffixOf s.fileext m = true
    · rw [if_pos hsuf] at hf
      simp only [Option.some.injEq, Prod.mk.injEq] at hf
      obtain ⟨hn, ht⟩ := hf
      subst hn
      obtain ⟨hp, hne, hnosep⟩ := childName_inv _ _ _ hcn
      exact ⟨hsuf, hne, hnosep, e, by rw [← hp]; exact hpe, ht.symm⟩
    · rw [if_neg hsuf] at hf
      cases hf

theorem list_complete (s : VdirBase) (os : OS) (n : Str) (e : Entry)
    (hlk : os.fs.lookup (s.path ++ '/' :: n) = some e) (hne : n ≠ [])
    (hnosep : ¬ '/' ∈ n) (hsuf : strSuffixOf s.fileext n = true) :
    (n, format_etag e.mtime) ∈ s.list os := by
  unfold VdirBase.list
  rw [List.mem_filterMap]
  refine ⟨(s.path ++ '/' :: n, e), FS.mem_of_lookup _ _ _ hlk, ?_⟩
  simp only []
  rw [childName_of_child _ _ hne hnosep]
  simp only []
  rw [if_pos hsuf]

/-- C10: `list` yields exactly the regular files of the store's directory
whose names end with the configured extension (sound: every listed pair is
such a file with its etag; complete: every such file is listed); in
particular an entry written by `set_meta` under a key that does not end
with the extension never appears in `list`'s output. -/
theorem list_only_fileext (s : VdirBase) (os : OS) (k : Str) (v : Option Str)
    (hk : strSuffixOf s.fileext k = false) :
    (∀ n t, (n, t) ∈ s.list os →
        strSuffixOf s.fileext n = true ∧
        ∃ e : Entry, (s.path ++ '/' :: n, e) ∈ os.fs ∧ t = format_etag e.mtime) ∧
    (∀ (n : Str) (e : Entry), os.fs.lookup (s.path ++ '/' :: n) = some e →
        n ≠ [] → ¬ '/' ∈ n → strSuffixOf s.fileext n = true →
        (n, format_etag e.mtime) ∈ s.list os) ∧
    (∀ t, (k, t) ∉ s.list (s.set_meta os k v)) := by
  refine ⟨?_, ?_, ?_⟩
  · intro n t h
    obtain ⟨h1, _, _, hex⟩ := list_mem_spec s os n t h
    exact ⟨h1, hex⟩
  · intro n e hlk hne hnosep hsuf
    exact list_complete s os n e hlk hne hnosep hsuf
  · intro t hmem
    have hsuf := (list_mem_spec _ _ _ _ hmem).1
    rw [hk] at hsuf
    cases hsuf

theorem list_only_fileext_witness :
    strSuffixOf (str ".txt") (str "color") = false ∧
    (str "color", format_etag 9) ∉
      VdirBase.list ⟨str "/store", str ".txt"⟩
        (VdirBase.set_meta ⟨str "/store", str ".txt"⟩ ⟨[], 9, 255⟩ (str "color")
          (some (str "#ff0000"))) :=
  ⟨by decide,
   (list_only_fileext ⟨str "/store", str ".txt"⟩ ⟨[], 9, 255⟩ (str "color")
      (some (str "#ff0000")) (by decide)).2.2 (format_etag 9)⟩
